import Mathlib

/-!
Verification of the gantt-chart timeline viewport and interaction engine.

Shallow embedding conventions:
* Calendar timestamps (luxon `DateTime`) are rationals: days since an arbitrary
  epoch.  `a.diff(b, 'days').days` is `a - b`, `a.plus({days: d})` is `a + d`,
  and `DateTime` comparison (which luxon does through `valueOf`) is `≤`/`<` on ℚ.
* JavaScript numbers are rationals; `Math.ceil` is `Int.ceil`, `Math.max`/`min`
  are `max`/`min`, and `Math.round` (half toward +∞) is `⌊x + 1/2⌋`.
* Luxon `Duration.as('days')` uses the casual conversion matrix:
  1 hour = 1/24 day, 1 week = 7 days, 1 month = 30 days, 1 year = 365 days.
* For the one claim that is explicitly about IEEE binary64 behaviour, an exact
  model of round-to-nearest-even binary64 rounding on ℚ is provided (normal
  range only, which covers all inputs involved).
-/

namespace Gantt

/-- JavaScript `Math.round`: round half toward +∞. -/
def jsRound (x : ℚ) : ℤ := ⌊x + 1/2⌋

/-! ### zoom-scale.ts -/

/-- `BASE_DAY_WIDTH` in `src/utils/zoom-scale.ts`: day width at scale 1.0. -/
def BASE_DAY_WIDTH : ℚ := 40

/-- `getDayWidthFromScale` in `src/utils/zoom-scale.ts`. -/
def getDayWidthFromScale (scale : ℚ) : ℚ := BASE_DAY_WIDTH * scale

/-- `getScaleFromDayWidth` in `src/utils/zoom-scale.ts`. -/
def getScaleFromDayWidth (dayWidth : ℚ) : ℚ := dayWidth / BASE_DAY_WIDTH

/-- `ZOOM_SCALE_LIMITS.min` in `src/utils/zoom-scale.ts`. -/
def ZOOM_SCALE_LIMITS_min : ℚ := 1/10

/-- `ZOOM_SCALE_LIMITS.max` in `src/utils/zoom-scale.ts`. -/
def ZOOM_SCALE_LIMITS_max : ℚ := 200

/-- A tick definition from `src/utils/zoom-scale.ts`.  The interval duration is
represented directly in days (`Duration.as('days')`); the `majorFormat`,
`minorFormat` and `label` fields feed only label rendering and are omitted. -/
structure TickDefinition where
  minScale : ℚ
  intervalDays : ℚ
deriving DecidableEq, Repr

/-- The `TICK_DEFINITIONS` table of `src/utils/zoom-scale.ts`, in source order
(descending `minScale`).  Intervals: 1h, 3h, 6h, 12h, 1 day, 2 days, 1 week,
2 weeks, 1 month, 3 months, 1 year, converted to days. -/
def TICK_DEFINITIONS : List TickDefinition :=
  [⟨100, 1/24⟩, ⟨50, 1/8⟩, ⟨25, 1/4⟩, ⟨12, 1/2⟩,
   ⟨6, 1⟩, ⟨3, 2⟩,
   ⟨3/2, 7⟩, ⟨4/5, 14⟩,
   ⟨2/5, 30⟩, ⟨1/5, 90⟩,
   ⟨0, 365⟩]

/-- `getTickDefinitionForScale` in `src/utils/zoom-scale.ts`: scan the table in
its (descending) order, return the first entry with `scale >= minScale`;
fall back to the last (coarsest) entry. -/
def getTickDefinitionForScale (scale : ℚ) : TickDefinition :=
  match TICK_DEFINITIONS.find? (fun d => d.minScale ≤ scale) with
  | some d => d
  | none => TICK_DEFINITIONS.getLastD ⟨0, 365⟩

/-! ### timeline-calculations.ts -/

/-- `durationToWidth` in `src/utils/timeline-calculations.ts`:
`Math.max(diffDays * dayWidth, 2)` (minimum 2px width). -/
def durationToWidth (start stop dayWidth : ℚ) : ℚ :=
  max ((stop - start) * dayWidth) 2

/-- A two-level tick-generation definition (`TickGenerationDef` in
`timeline-calculations.ts`); the format strings are omitted, the minor
interval is carried in days. -/
structure TickGenerationDef where
  majorUnit : String
  minorUnit : String
  minorIntervalDays : ℚ
deriving DecidableEq, Repr

/-- `getTickGenerationDefForScale` in `src/utils/timeline-calculations.ts`:
the hard-coded descending threshold chain (17, 5.5, 2.8, 1.4, 0.95, 0.48,
0.24, 0.17, 0.085, 0.04, 0.013, fallback year). -/
def getTickGenerationDefForScale (scale : ℚ) : TickGenerationDef :=
  if 17 ≤ scale then ⟨"day", "hour", 1/24⟩
  else if 11/2 ≤ scale then ⟨"day", "hour", 1/8⟩
  else if 14/5 ≤ scale then ⟨"day", "hour", 1/4⟩
  else if 7/5 ≤ scale then ⟨"day", "hour", 1/2⟩
  else if 19/20 ≤ scale then ⟨"month", "day", 1⟩
  else if 12/25 ≤ scale then ⟨"month", "day", 2⟩
  else if 6/25 ≤ scale then ⟨"month", "day", 4⟩
  else if 17/100 ≤ scale then ⟨"month", "week", 7⟩
  else if 17/200 ≤ scale then ⟨"month", "week", 14⟩
  else if 1/25 ≤ scale then ⟨"year", "month", 30⟩
  else if 13/1000 ≤ scale then ⟨"year", "month", 90⟩
  else ⟨"year", "year", 365⟩

/-! ### gantt-store.ts (`createGanttStore`) -/

/-- `calculateAdaptiveBuffer` in `core/gantt-store.ts`: tiered buffer size from
the selected tick definition's minor interval expressed in days. -/
def calculateAdaptiveBuffer (viewportDays zoomScale : ℚ) : ℤ :=
  let intervalDays := (getTickDefinitionForScale zoomScale).intervalDays
  if intervalDays < 1 then
    max ⌈viewportDays * 3⌉ ⌈intervalDays * 50⌉
  else if intervalDays ≤ 7 then
    max ⌈viewportDays * 5⌉ ⌈intervalDays * 30⌉
  else if intervalDays ≤ 31 then
    max ⌈viewportDays * 8⌉ ⌈intervalDays * 20⌉
  else
    max ⌈viewportDays * 15⌉ ⌈intervalDays * 15⌉

/-- A materialized date window (`DateRange`): start/end timestamps in days. -/
structure DateRange where
  start : ℚ
  stop : ℚ
deriving DecidableEq, Repr

/-- `Math.ceil(containerWidth / dayWidth)`, the viewport width in days, as
computed by both `initExtendedDateRange` and `expandExtendedDateRangeIfNeeded`. -/
def viewportDaysOf (containerWidth dayWidth : ℚ) : ℤ :=
  ⌈containerWidth / dayWidth⌉

/-- `initExtendedDateRange` in `core/gantt-store.ts`: widen the base date range
by the adaptive buffer on both sides. -/
def initExtendedDateRange (baseStart baseStop containerWidth dayWidth zoomScale : ℚ) :
    DateRange :=
  let viewportDays : ℚ := (viewportDaysOf containerWidth dayWidth : ℤ)
  let bufferDays : ℚ := (calculateAdaptiveBuffer viewportDays zoomScale : ℤ)
  ⟨baseStart - bufferDays, baseStop + bufferDays⟩

/-- Result of `expandExtendedDateRangeIfNeeded`: the (possibly) expanded window,
the scroll offset written to `timelineElement.scrollLeft` (`none` when nothing
was written), and the boolean the function returns. -/
structure ExpandResult where
  range : DateRange
  scrollLeftSet : Option ℚ
  expanded : Bool
deriving DecidableEq, Repr

/-- `expandExtendedDateRangeIfNeeded` in `core/gantt-store.ts`.
`hasTimelineElement` models `timelineElement !== null`; when it is false the
window is still expanded but no scroll correction is written. -/
def expandExtendedDateRangeIfNeeded (cur : DateRange)
    (scrollLeft containerWidth dayWidth zoomScale : ℚ)
    (hasTimelineElement : Bool) : ExpandResult :=
  let viewportDays : ℚ := (viewportDaysOf containerWidth dayWidth : ℤ)
  let threshold : ℚ := viewportDays * (1/2)
  let bufferDays : ℚ := (calculateAdaptiveBuffer viewportDays zoomScale : ℤ)
  let totalDays : ℚ := cur.stop - cur.start
  let scrollDays : ℚ := scrollLeft / dayWidth
  let centerDays : ℚ := scrollDays + viewportDays / 2
  let centerDate : ℚ := cur.start + centerDays
  let newStart : ℚ := if scrollDays < threshold then cur.start - bufferDays else cur.start
  let newStop : ℚ :=
    if scrollDays > totalDays - threshold - viewportDays then cur.stop + bufferDays else cur.stop
  if scrollDays < threshold ∨ scrollDays > totalDays - threshold - viewportDays then
    { range := ⟨newStart, newStop⟩
      scrollLeftSet :=
        if hasTimelineElement then
          some (max 0 ((centerDate - newStart - viewportDays / 2) * dayWidth))
        else none
      expanded := true }
  else
    { range := cur, scrollLeftSet := none, expanded := false }

/-- The date under the viewport center: `window.start + (scrollDays + viewportDays/2)`. -/
def centerDateOf (windowStart scrollLeft containerWidth dayWidth : ℚ) : ℚ :=
  windowStart + (scrollLeft / dayWidth + (viewportDaysOf containerWidth dayWidth : ℤ) / 2)

/-- `scrollToDate` in `components/GanttChart.svelte`, restricted to its effect
on the extended date range and the scroll offset: when the target date lies
outside the current window, the window is re-materialized with
`initExtendedDateRange` from the base range; the scroll offset is then computed
from the captured (pre-update) window start. -/
def scrollToDate (cur : DateRange) (baseStart baseStop containerWidth dayWidth targetDate : ℚ) :
    DateRange × ℚ :=
  let range :=
    if targetDate < cur.start ∨ targetDate > cur.stop then
      initExtendedDateRange baseStart baseStop containerWidth dayWidth
        (getScaleFromDayWidth dayWidth)
    else cur
  let targetDays := targetDate - cur.start
  let targetContentX := targetDays * dayWidth
  (range, max 0 (targetContentX - containerWidth / 2))

/-! ### GanttTimeline.svelte — zoom handling -/

/-- Result of `handleZoomChange` in `components/GanttTimeline.svelte`:
the clamped scale, the new day width, the target date expressed in days from
the range start, the target's offset ratio within the viewport, and the scroll
offset written synchronously to the container. -/
structure ZoomChangeResult where
  clampedScale : ℚ
  newDayWidth : ℚ
  targetDays : ℚ
  offsetFrac : ℚ
  newScrollLeft : ℚ
deriving DecidableEq, Repr

/-- `handleZoomChange` in `components/GanttTimeline.svelte`.  `mouseX` is the
optional client-x of the pointer, `rectLeft` the container's bounding-rect
left; when `mouseX` is `undefined` the handler falls back to the viewport
center (ratio 1/2).  The target date is computed at the old `dayWidth`, the
new scroll offset at the new one, clamped to `≥ 0`. -/
def handleZoomChange (rangeStart scrollLeft containerWidth rectLeft dayWidth newScale : ℚ)
    (mouseX : Option ℚ) : ZoomChangeResult :=
  let clampedScale := max ZOOM_SCALE_LIMITS_min (min ZOOM_SCALE_LIMITS_max newScale)
  let target : ℚ × ℚ :=
    match mouseX with
    | some mx =>
      let mouseOffsetX := mx - rectLeft
      let mouseContentX := scrollLeft + mouseOffsetX
      (rangeStart + mouseContentX / dayWidth, mouseOffsetX / containerWidth)
    | none =>
      let centerContentX := scrollLeft + containerWidth / 2
      (rangeStart + centerContentX / dayWidth, 1/2)
  let newDayWidth := getDayWidthFromScale clampedScale
  let newTargetDays := target.1 - rangeStart
  let newTargetContentX := newTargetDays * newDayWidth
  { clampedScale := clampedScale
    newDayWidth := newDayWidth
    targetDays := newTargetDays
    offsetFrac := target.2
    newScrollLeft := max 0 (newTargetContentX - containerWidth * target.2) }

/-- The argument tuple a `ZoomGestureDetector` callback receives. -/
structure ZoomCallbackArgs where
  newScale : ℚ
  deltaScale : ℚ
  mouseX : Option ℚ
  mouseY : Option ℚ
deriving DecidableEq, Repr

/-- The wheel branch of `ZoomGestureDetector.handleWheel` in
`src/utils/zoom-gesture.ts` (taken when Ctrl/Cmd is held): zoom factor 0.95
for `deltaY > 0`, otherwise 1.05, and the callback invocation
`onZoomChange(newScale, deltaScale)` — the wheel event's `clientX`/`clientY`
are NOT forwarded, so the handler's `mouseX`/`mouseY` are `undefined`. -/
def zoomGestureWheelCallbackArgs (currentScale deltaY : ℚ) : ZoomCallbackArgs :=
  let zoomFactor : ℚ := if deltaY > 0 then 19/20 else 21/20
  let newScale := currentScale * zoomFactor
  ⟨newScale, newScale - currentScale, none, none⟩

/-- A Ctrl+wheel zoom end to end as wired in the source:
`ZoomGestureDetector.handleWheel` → `handleZoomChange`. -/
def wheelZoom (rangeStart scrollLeft containerWidth rectLeft dayWidth currentScale deltaY : ℚ) :
    ZoomChangeResult :=
  let args := zoomGestureWheelCallbackArgs currentScale deltaY
  handleZoomChange rangeStart scrollLeft containerWidth rectLeft dayWidth args.newScale args.mouseX

/-! ### GanttTimeline.svelte — drag state machine -/

/-- Drag modes of the `dragState` in `components/GanttTimeline.svelte`. -/
inductive DragMode where
  | move
  | resizeStart
  | resizeEnd
  | groupMove
deriving DecidableEq, Repr

/-- The `dragState` record opened by `handleMouseDown`. -/
structure DragState where
  mode : DragMode
  originalStart : ℚ
  originalEnd : ℚ
  startX : ℚ
  lastAppliedDelta : ℚ
deriving DecidableEq, Repr

/-- What a single `handleMouseMove` dispatches (assuming the corresponding
handler prop is present): a bar edit `(newStart, newEnd)`, an incremental
group delta, or nothing. -/
inductive DragDispatch where
  | barDrag (newStart newEnd : ℚ)
  | groupDrag (deltaDiff : ℚ)
  | noDispatch
deriving DecidableEq, Repr

/-- The snapped day delta computed by `handleMouseMove`:
`snapUnit = dayWidth / dragSnapDivision`;
`snappedDelta = Math.round(deltaX / snapUnit) * snapUnit`;
`daysDelta = snappedDelta / dayWidth`. -/
def snappedDaysDelta (clientX startX dayWidth snapDivision : ℚ) : ℚ :=
  let deltaX := clientX - startX
  let snapUnit := dayWidth / snapDivision
  let snappedDelta := (jsRound (deltaX / snapUnit) : ℤ) * snapUnit
  snappedDelta / dayWidth

/-- `handleMouseMove` in `components/GanttTimeline.svelte` for an open drag
session: returns the dispatch and the updated session state. -/
def handleMouseMove (st : DragState) (clientX dayWidth snapDivision : ℚ) :
    DragDispatch × DragState :=
  let daysDelta := snappedDaysDelta clientX st.startX dayWidth snapDivision
  match st.mode with
  | DragMode.groupMove =>
    if daysDelta ≠ st.lastAppliedDelta then
      (DragDispatch.groupDrag (daysDelta - st.lastAppliedDelta),
       { st with lastAppliedDelta := daysDelta })
    else
      (DragDispatch.noDispatch, st)
  | DragMode.move =>
    (DragDispatch.barDrag (st.originalStart + daysDelta) (st.originalEnd + daysDelta), st)
  | DragMode.resizeStart =>
    let newStart := st.originalStart + daysDelta
    let newStart := if newStart ≥ st.originalEnd then st.originalEnd - 1 else newStart
    (DragDispatch.barDrag newStart st.originalEnd, st)
  | DragMode.resizeEnd =>
    let newEnd := st.originalEnd + daysDelta
    let newEnd := if newEnd ≤ st.originalStart then st.originalStart + 1 else newEnd
    (DragDispatch.barDrag st.originalStart newEnd, st)

/-- A whole drag session: fold `handleMouseMove` over the successive pointer
client-x positions, collecting the dispatches. -/
def groupMoveRun (dayWidth snapDivision : ℚ) (st : DragState) :
    List ℚ → List DragDispatch × DragState
  | [] => ([], st)
  | x :: xs =>
    let step := handleMouseMove st x dayWidth snapDivision
    let rest := groupMoveRun dayWidth snapDivision step.2 xs
    (step.1 :: rest.1, rest.2)

/-- Sum of the incremental group deltas among a list of dispatches. -/
def dispatchedGroupSum : List DragDispatch → ℚ
  | [] => 0
  | DragDispatch.groupDrag q :: rest => q + dispatchedGroupSum rest
  | _ :: rest => dispatchedGroupSum rest

/-! ### The spec's buffer formula (for the refinement claim C5) -/

/-- Modelled from the spec: the tiered buffer formula `bufferDays(viewportDays,
scale)` of §4.3 as a function of `intervalDays`, written from the spec's words
to be compared with `calculateAdaptiveBuffer`. -/
def bufferDaysSpec (viewportDays intervalDays : ℚ) : ℤ :=
  if intervalDays < 1 then
    max ⌈viewportDays * 3⌉ ⌈intervalDays * 50⌉
  else if 1 ≤ intervalDays ∧ intervalDays ≤ 7 then
    max ⌈viewportDays * 5⌉ ⌈intervalDays * 30⌉
  else if 7 < intervalDays ∧ intervalDays ≤ 31 then
    max ⌈viewportDays * 8⌉ ⌈intervalDays * 20⌉
  else
    max ⌈viewportDays * 15⌉ ⌈intervalDays * 15⌉

/-! ### IEEE binary64 rounding model (for the claim about float exactness)

JavaScript numbers are IEEE-754 binary64.  `fl64` is exact round-to-nearest,
ties-to-even, for nonzero rationals in the normal range (the only inputs that
occur below); `mul64`/`div64` are the correctly rounded JS `*` and `/`. -/

/-- Fuel-driven `⌊log₂ n⌋` for naturals (`0` for `n < 2`). -/
def natLog2F (fuel n : ℕ) : ℕ :=
  if fuel = 0 ∨ n < 2 then 0 else natLog2F (fuel - 1) (n / 2) + 1
termination_by fuel
decreasing_by omega

/-- Fuel-driven `⌈log₂ n⌉` for naturals (`0` for `n ≤ 1`). -/
def natClog2F (fuel n : ℕ) : ℕ :=
  if fuel = 0 ∨ n ≤ 1 then 0 else natClog2F (fuel - 1) ((n + 1) / 2) + 1
termination_by fuel
decreasing_by omega

/-- `⌊log₂ q⌋` for a positive rational. -/
def floorLog2 (q : ℚ) : ℤ :=
  if 1 ≤ q then (natLog2F 128 ⌊q⌋.toNat : ℕ)
  else -(natClog2F 128 ⌈q⁻¹⌉.toNat : ℕ)

/-- Round a rational to the nearest integer, ties to even. -/
def roundHalfEven (x : ℚ) : ℤ :=
  let f := ⌊x⌋
  let r := x - f
  if r < 1/2 then f
  else if 1/2 < r then f + 1
  else if f % 2 = 0 then f else f + 1

/-- Binary64 rounding of a positive rational in the normal range:
scale into `[2^52, 2^53)`, round to nearest even, scale back. -/
def fl64pos (q : ℚ) : ℚ :=
  let e : ℤ := floorLog2 q - 52
  (roundHalfEven (q / 2 ^ e) : ℤ) * 2 ^ e

/-- Binary64 rounding of a rational (normal range; no overflow handling). -/
def fl64 (q : ℚ) : ℚ :=
  if q = 0 then 0
  else if 0 < q then fl64pos q
  else -fl64pos (-q)

/-- JS `a * b` on binary64 values. -/
def mul64 (a b : ℚ) : ℚ := fl64 (a * b)

/-- JS `a / b` on binary64 values. -/
def div64 (a b : ℚ) : ℚ := fl64 (a / b)

/-- `getDayWidthFromScale` as executed in JS (binary64 semantics). -/
def getDayWidthFromScale64 (scale : ℚ) : ℚ := mul64 BASE_DAY_WIDTH scale

/-- `getScaleFromDayWidth` as executed in JS (binary64 semantics). -/
def getScaleFromDayWidth64 (dayWidth : ℚ) : ℚ := div64 dayWidth BASE_DAY_WIDTH

/-- The double 1897099994219861·2⁻⁴⁶ ≈ 26.9594, a representable binary64
value inside the valid scale range. -/
def badScale : ℚ := 1897099994219861 / 2 ^ 46

/-! ## Helper lemmas -/

theorem calculateAdaptiveBuffer_nonneg (viewportDays zoomScale : ℚ)
    (h : 0 ≤ viewportDays) : 0 ≤ calculateAdaptiveBuffer viewportDays zoomScale := by
  simp only [calculateAdaptiveBuffer]
  split_ifs <;>
    exact le_trans (Int.ceil_nonneg (by positivity)) (le_max_left _ _)

theorem fl64_pos_eval (q : ℚ) (h : 0 < q) : fl64 q = fl64pos q := by
  unfold fl64
  rw [if_neg h.ne', if_pos h]

theorem fl64pos_eval (q : ℚ) (e m : ℤ) (hlog : floorLog2 q = e + 52)
    (hr : roundHalfEven (q / 2 ^ e) = m) : fl64pos q = m * 2 ^ e := by
  unfold fl64pos
  simp only [hlog, add_sub_cancel_right, hr]

theorem floorLog2_eval (q : ℚ) (n : ℕ) (k : ℕ) (h1 : 1 ≤ q) (hf : ⌊q⌋.toNat = n)
    (hl : natLog2F 128 n = k) : floorLog2 q = k := by
  unfold floorLog2
  rw [if_pos h1, hf, hl]

theorem getLastD_of_ne_nil {α : Type} (l : List α) (d d' : α) (h : l ≠ []) :
    l.getLastD d = l.getLastD d' := by
  cases l with
  | nil => exact absurd rfl h
  | cons a t => rw [List.getLastD_cons, List.getLastD_cons]

theorem find?_max_of_descending (scale : ℚ) :
    ∀ (l : List TickDefinition),
      l.Pairwise (fun a b => b.minScale < a.minScale) →
      ∀ d, l.find? (fun x => decide (x.minScale ≤ scale)) = some d →
        d ∈ l ∧ d.minScale ≤ scale ∧
          ∀ d2 ∈ l, d2.minScale ≤ scale → d2.minScale ≤ d.minScale := by
  intro l
  induction l with
  | nil => intro _ d hd; simp [List.find?] at hd
  | cons a t ih =>
    intro hp d hfind
    rw [List.pairwise_cons] at hp
    by_cases hpa : a.minScale ≤ scale
    · rw [List.find?_cons_of_pos _ (by simpa using hpa)] at hfind
      obtain rfl : a = d := by simpa using hfind
      refine ⟨List.mem_cons_self _ _, hpa, ?_⟩
      intro d2 hd2 _
      rcases List.mem_cons.mp hd2 with rfl | hd2
      · exact le_refl _
      · exact le_of_lt (hp.1 d2 hd2)
    · rw [List.find?_cons_of_neg _ (by simpa using hpa)] at hfind
      obtain ⟨hmem, hle, hmax⟩ := ih hp.2 d hfind
      refine ⟨List.mem_cons_of_mem _ hmem, hle, ?_⟩
      intro d2 hd2 h2
      rcases List.mem_cons.mp hd2 with rfl | hd2
      · exact absurd h2 hpa
      · exact hmax d2 hd2 h2

theorem handleMouseMove_groupMove (s : DragState) (x dayWidth snapDivision : ℚ)
    (h : s.mode = DragMode.groupMove) :
    handleMouseMove s x dayWidth snapDivision
      = (if snappedDaysDelta x s.startX dayWidth snapDivision = s.lastAppliedDelta
         then (DragDispatch.noDispatch, s)
         else (DragDispatch.groupDrag
                 (snappedDaysDelta x s.startX dayWidth snapDivision - s.lastAppliedDelta),
               { s with lastAppliedDelta :=
                   snappedDaysDelta x s.startX dayWidth snapDivision })) := by
  simp only [handleMouseMove, h]
  by_cases hc : snappedDaysDelta x s.startX dayWidth snapDivision = s.lastAppliedDelta
  · rw [if_neg (by simpa using hc), if_pos hc]
  · rw [if_pos hc, if_neg hc]

theorem groupMoveRun_invariants (dayWidth snapDivision : ℚ) :
    ∀ (xs : List ℚ) (st : DragState), st.mode = DragMode.groupMove →
      (groupMoveRun dayWidth snapDivision st xs).2.mode = DragMode.groupMove ∧
      (groupMoveRun dayWidth snapDivision st xs).2.startX = st.startX ∧
      dispatchedGroupSum (groupMoveRun dayWidth snapDivision st xs).1
        = (groupMoveRun dayWidth snapDivision st xs).2.lastAppliedDelta
            - st.lastAppliedDelta := by
  intro xs
  induction xs with
  | nil => intro st h; simp [groupMoveRun, dispatchedGroupSum, h]
  | cons x t ih =>
    intro st h
    rw [groupMoveRun]
    rw [handleMouseMove_groupMove st x dayWidth snapDivision h]
    by_cases hc : snappedDaysDelta x st.startX dayWidth snapDivision = st.lastAppliedDelta
    · rw [if_pos hc]
      obtain ⟨h1, h2, h3⟩ := ih st h
      exact ⟨h1, h2, by simpa [dispatchedGroupSum] using h3⟩
    · rw [if_neg hc]
      obtain ⟨h1, h2, h3⟩ :=
        ih { st with lastAppliedDelta := snappedDaysDelta x st.startX dayWidth snapDivision } h
      refine ⟨h1, h2, ?_⟩
      simp only [dispatchedGroupSum]
      rw [h3]
      ring

theorem groupMoveRun_final (dayWidth snapDivision : ℚ) :
    ∀ (xs : List ℚ) (st : DragState), st.mode = DragMode.groupMove → xs ≠ [] →
      (groupMoveRun dayWidth snapDivision st xs).2.lastAppliedDelta
        = snappedDaysDelta (xs.getLastD 0) st.startX dayWidth snapDivision := by
  intro xs
  induction xs with
  | nil => intro st _ h; exact absurd rfl h
  | cons x t ih =>
    intro st h _
    rw [groupMoveRun]
    rw [handleMouseMove_groupMove st x dayWidth snapDivision h]
    by_cases ht : t = []
    · subst ht
      by_cases hc : snappedDaysDelta x st.startX dayWidth snapDivision = st.lastAppliedDelta
      · rw [if_pos hc]
        simp [groupMoveRun, List.getLastD_cons, hc]
      · rw [if_neg hc]
        simp [groupMoveRun, List.getLastD_cons]
    · by_cases hc : snappedDaysDelta x st.startX dayWidth snapDivision = st.lastAppliedDelta
      · rw [if_pos hc]
        rw [ih st h ht]
        rw [List.getLastD_cons, getLastD_of_ne_nil t x 0 ht]
      · rw [if_neg hc]
        rw [ih { st with lastAppliedDelta :=
          snappedDaysDelta x st.startX dayWidth snapDivision } h ht]
        rw [List.getLastD_cons, getLastD_of_ne_nil t x 0 ht]

/-! ## Claims -/

/-- C10: for every pair of dates and every day width, the computed bar width is
`max((end − start in days) × dayWidth, 2)`, hence at least 2 pixels, never zero
or negative, even when the end does not exceed the start. -/
theorem durationToWidth_min_two (start stop dayWidth : ℚ) :
    durationToWidth start stop dayWidth = max ((stop - start) * dayWidth) 2 ∧
    2 ≤ durationToWidth start stop dayWidth :=
  ⟨rfl, le_max_right _ _⟩

/-- C9 (amended): the scale/day-width round trip
`scaleFromDayWidth(dayWidth(s)) = s` holds exactly for every valid scale in
exact (rational) arithmetic; under binary64 floating point it is only
approximate (see the counterexample). -/
theorem scale_roundtrip_exact_rational (s : ℚ)
    (hmin : ZOOM_SCALE_LIMITS_min ≤ s) (hmax : s ≤ ZOOM_SCALE_LIMITS_max) :
    getScaleFromDayWidth (getDayWidthFromScale s) = s := by
  unfold getScaleFromDayWidth getDayWidthFromScale BASE_DAY_WIDTH
  ring

/-- Witness for C9's amended theorem at the concrete valid scale 1. -/
theorem scale_roundtrip_exact_rational_witness :
    ZOOM_SCALE_LIMITS_min ≤ (1 : ℚ) ∧ (1 : ℚ) ≤ ZOOM_SCALE_LIMITS_max ∧
    getScaleFromDayWidth (getDayWidthFromScale 1) = 1 :=
  ⟨by norm_num [ZOOM_SCALE_LIMITS_min], by norm_num [ZOOM_SCALE_LIMITS_max],
   scale_roundtrip_exact_rational 1 (by norm_num [ZOOM_SCALE_LIMITS_min])
     (by norm_num [ZOOM_SCALE_LIMITS_max])⟩

/-- C9 (counterexample): `badScale` is a representable binary64 value inside
the clamp bounds, and the round trip computed with binary64 multiplication and
division (as JS executes `getScaleFromDayWidth(getDayWidthFromScale(s))`)
does not return it: the claim that the round trip is exact *under floating
point* is false. -/
theorem roundtrip_float64_counterexample :
    fl64 badScale = badScale ∧
    ZOOM_SCALE_LIMITS_min ≤ badScale ∧ badScale ≤ ZOOM_SCALE_LIMITS_max ∧
    getScaleFromDayWidth64 (getDayWidthFromScale64 badScale) ≠ badScale := by
  have hpow46 : ((2 : ℚ) ^ (46 : ℕ)) = 70368744177664 := by norm_num
  have hbad : badScale = 1897099994219861 / 70368744177664 := by
    rw [badScale, hpow46]
  -- fl64 badScale = badScale
  have hlog0 : floorLog2 badScale = 4 := by
    refine floorLog2_eval _ 26 4 (by rw [hbad]; norm_num) ?_ ?_
    · rw [hbad]
      norm_num
      rfl
    · rw [natLog2F]; norm_num
      rw [natLog2F]; norm_num
      rw [natLog2F]; norm_num
      rw [natLog2F]; norm_num
      rw [natLog2F]; norm_num
  have hid : fl64 badScale = badScale := by
    rw [fl64_pos_eval _ (by rw [hbad]; norm_num)]
    have h1 : fl64pos badScale = 7588399976879444 * 2 ^ (-(48 : ℤ)) := by
      refine fl64pos_eval _ (-(48 : ℤ)) _ (by rw [hlog0]; norm_num) ?_
      have hq : badScale / 2 ^ (-(48 : ℤ)) = 7588399976879444 := by
        rw [zpow_neg, hbad]
        norm_num
      rw [hq]
      norm_num [roundHalfEven]
    rw [h1, zpow_neg, hbad]
    norm_num
  refine ⟨hid, by rw [hbad]; norm_num [ZOOM_SCALE_LIMITS_min],
    by rw [hbad]; norm_num [ZOOM_SCALE_LIMITS_max], ?_⟩
  -- the forward multiplication rounds
  have hmul : getDayWidthFromScale64 badScale = 4742749985549652 / 2 ^ 42 := by
    unfold getDayWidthFromScale64 mul64 BASE_DAY_WIDTH
    have hq40 : (40 : ℚ) * badScale = 9485499971099305 / 8796093022208 := by
      rw [hbad]; norm_num
    rw [hq40, fl64_pos_eval _ (by norm_num)]
    have hlog1 : floorLog2 ((9485499971099305 : ℚ) / 8796093022208) = 10 := by
      refine floorLog2_eval _ 1078 10 (by norm_num) (by norm_num; rfl) ?_
      rw [natLog2F]; norm_num
      rw [natLog2F]; norm_num
      rw [natLog2F]; norm_num
      rw [natLog2F]; norm_num
      rw [natLog2F]; norm_num
      rw [natLog2F]; norm_num
      rw [natLog2F]; norm_num
      rw [natLog2F]; norm_num
      rw [natLog2F]; norm_num
      rw [natLog2F]; norm_num
      rw [natLog2F]; norm_num
    have h1 : fl64pos ((9485499971099305 : ℚ) / 8796093022208)
        = 4742749985549652 * 2 ^ (-(42 : ℤ)) := by
      refine fl64pos_eval _ (-(42 : ℤ)) _ (by rw [hlog1]; norm_num) ?_
      have hq : ((9485499971099305 : ℚ) / 8796093022208) / 2 ^ (-(42 : ℤ))
          = 9485499971099305 / 2 := by
        rw [zpow_neg]
        norm_num
      rw [hq]
      norm_num [roundHalfEven]
    rw [h1, zpow_neg]
    norm_num
  rw [hmul]
  -- the backward division rounds to the adjacent double
  have hdiv : getScaleFromDayWidth64 ((4742749985549652 : ℚ) / 2 ^ 42)
      = 7588399976879443 / 2 ^ 48 := by
    unfold getScaleFromDayWidth64 div64 BASE_DAY_WIDTH
    have hq : ((4742749985549652 : ℚ) / 2 ^ 42) / 40
        = 1185687496387413 / 43980465111040 := by
      norm_num
    rw [hq, fl64_pos_eval _ (by norm_num)]
    have hlog2 : floorLog2 ((1185687496387413 : ℚ) / 43980465111040) = 4 := by
      refine floorLog2_eval _ 26 4 (by norm_num) (by norm_num; rfl) ?_
      rw [natLog2F]; norm_num
      rw [natLog2F]; norm_num
      rw [natLog2F]; norm_num
      rw [natLog2F]; norm_num
      rw [natLog2F]; norm_num
    have h1 : fl64pos ((1185687496387413 : ℚ) / 43980465111040)
        = 7588399976879443 * 2 ^ (-(48 : ℤ)) := by
      refine fl64pos_eval _ (-(48 : ℤ)) _ (by rw [hlog2]; norm_num) ?_
      have hq2 : ((1185687496387413 : ℚ) / 43980465111040) / 2 ^ (-(48 : ℤ))
          = 37941999884397216 / 5 := by
        rw [zpow_neg]
        norm_num
      rw [hq2]
      norm_num [roundHalfEven]
    rw [h1, zpow_neg]
    norm_num
  rw [hdiv, hbad]
  norm_num


/-- C6: tick-definition selection scans the table (kept in strictly descending
`minScale` order) and returns, for every `scale ≥ 0`, a member of the table
whose `minScale` is at most `scale` and is the largest such — i.e. the first
match in descending order; and on the hard-coded threshold chain, scale 0.95
selects the 1-day minor definition while 0.94 selects the 2-day one. -/
theorem tick_definition_selection (scale : ℚ) (hs : 0 ≤ scale) :
    TICK_DEFINITIONS.Pairwise (fun a b => b.minScale < a.minScale) ∧
    getTickDefinitionForScale scale ∈ TICK_DEFINITIONS ∧
    (getTickDefinitionForScale scale).minScale ≤ scale ∧
    (∀ d ∈ TICK_DEFINITIONS, d.minScale ≤ scale →
      d.minScale ≤ (getTickDefinitionForScale scale).minScale) ∧
    (getTickGenerationDefForScale (19/20)).minorIntervalDays = 1 ∧
    (getTickGenerationDefForScale (47/50)).minorIntervalDays = 2 := by
  have hpair : TICK_DEFINITIONS.Pairwise (fun a b => b.minScale < a.minScale) := by
    norm_num [TICK_DEFINITIONS, List.pairwise_cons]
  have hsome : (TICK_DEFINITIONS.find? (fun x => decide (x.minScale ≤ scale))).isSome := by
    rw [List.find?_isSome]
    exact ⟨⟨0, 365⟩, by norm_num [TICK_DEFINITIONS], by simpa using hs⟩
  obtain ⟨d, hd⟩ := Option.isSome_iff_exists.mp hsome
  have hsel : getTickDefinitionForScale scale = d := by
    unfold getTickDefinitionForScale
    rw [hd]
  obtain ⟨hmem, hle, hmax⟩ := find?_max_of_descending scale TICK_DEFINITIONS hpair d hd
  rw [hsel]
  refine ⟨hpair, hmem, hle, hmax, ?_, ?_⟩
  · norm_num [getTickGenerationDefForScale]
  · norm_num [getTickGenerationDefForScale]

/-- Witness for C6 at the concrete scale 1. -/
theorem tick_definition_selection_witness :
    (0 : ℚ) ≤ 1 ∧ (getTickDefinitionForScale 1).minScale ≤ 1 :=
  ⟨by norm_num, (tick_definition_selection 1 (by norm_num)).2.2.1⟩

/-- C5: the adaptive buffer is exactly the spec's tiered formula over the
selected tick definition's minor interval in days; and in the scenario
`viewportWidthPx = 1000`, `dayWidth = 40` the viewport is 25 days, a scale with
a 1-day minor interval lands in the `[1, 7]` tier, and the buffer is
`max(⌈125⌉, ⌈30⌉) = 125` days. -/
theorem calculateAdaptiveBuffer_tiers :
    (∀ viewportDays zoomScale : ℚ,
      calculateAdaptiveBuffer viewportDays zoomScale
        = bufferDaysSpec viewportDays (getTickDefinitionForScale zoomScale).intervalDays) ∧
    viewportDaysOf 1000 40 = 25 ∧
    (getTickDefinitionForScale 6).intervalDays = 1 ∧
    calculateAdaptiveBuffer 25 6 = max ⌈(25 : ℚ) * 5⌉ ⌈(1 : ℚ) * 30⌉ ∧
    calculateAdaptiveBuffer 25 6 = 125 := by
  have hsel : (getTickDefinitionForScale 6).intervalDays = 1 := by
    norm_num [getTickDefinitionForScale, TICK_DEFINITIONS, List.find?]
  refine ⟨?_, ?_, hsel, ?_, ?_⟩
  · intro vd s
    simp only [calculateAdaptiveBuffer, bufferDaysSpec]
    by_cases h1 : (getTickDefinitionForScale s).intervalDays < 1
    · simp [h1]
    · by_cases h2 : (getTickDefinitionForScale s).intervalDays ≤ 7
      · simp [h1, h2, not_lt.mp h1]
      · by_cases h3 : (getTickDefinitionForScale s).intervalDays ≤ 31
        · simp [h1, h2, h3, not_le.mp h2]
        · simp [h1, h2, h3, not_le.mp h2]
  · norm_num [viewportDaysOf]
  · simp only [calculateAdaptiveBuffer, hsel]
    norm_num
  · simp only [calculateAdaptiveBuffer, hsel]
    norm_num

/-- C2 (counterexample): with `originStart = 0` (Jan 1 as day 0),
`originEnd = 9` (Jan 10), `dayWidth = 40`, `snapDivision = 4` and a pointer
delta of 340 px, the snapped day delta is 8.5 and the code dispatches
`newStart = 8.5`, which is NOT `min(originStart + dayDelta, originEnd − 1) = 8`,
and the resulting span `9 − 8.5 = 0.5` is less than the claimed 1-day minimum. -/
theorem resize_min_clamp_counterexample :
    (handleMouseMove ⟨DragMode.resizeStart, 0, 9, 0, 0⟩ 340 40 4).1
        = DragDispatch.barDrag (17/2) 9 ∧
    (17/2 : ℚ) ≠ min (0 + 17/2) (9 - 1) ∧
    (9 : ℚ) - 17/2 < 1 := by
  have hd : snappedDaysDelta 340 0 40 4 = 17/2 := by
    norm_num [snappedDaysDelta, jsRound]
  refine ⟨?_, by norm_num, by norm_num⟩
  simp only [handleMouseMove, hd]
  norm_num

/-- C2 (amended): `resize-start` dispatches `originStart + dayDelta` unless
that reaches or passes `originEnd`, in which case it dispatches
`originEnd − 1 day` (so the span stays strictly positive but can drop below
one day for snapped fractional deltas); symmetrically for `resize-end`; in the
scenario `originStart = Jan 1`, `originEnd = Jan 10`, `dayDelta = 15`, the
dispatched start is Jan 9, not Jan 16. -/
theorem resize_clamp_amended (st : DragState) (clientX dayWidth snapDivision : ℚ) :
    (st.mode = DragMode.resizeStart →
      (handleMouseMove st clientX dayWidth snapDivision).1
        = DragDispatch.barDrag
            (if st.originalStart + snappedDaysDelta clientX st.startX dayWidth snapDivision
                  ≥ st.originalEnd
             then st.originalEnd - 1
             else st.originalStart + snappedDaysDelta clientX st.startX dayWidth snapDivision)
            st.originalEnd) ∧
    (st.mode = DragMode.resizeEnd →
      (handleMouseMove st clientX dayWidth snapDivision).1
        = DragDispatch.barDrag st.originalStart
            (if st.originalEnd + snappedDaysDelta clientX st.startX dayWidth snapDivision
                  ≤ st.originalStart
             then st.originalStart + 1
             else st.originalEnd + snappedDaysDelta clientX st.startX dayWidth snapDivision)) ∧
    (handleMouseMove ⟨DragMode.resizeStart, 0, 9, 0, 0⟩ 600 40 4).1
      = DragDispatch.barDrag 8 9 := by
  refine ⟨?_, ?_, ?_⟩
  · intro h
    simp only [handleMouseMove, h]
  · intro h
    simp only [handleMouseMove, h]
  · have hd : snappedDaysDelta 600 0 40 4 = 15 := by
      norm_num [snappedDaysDelta, jsRound]
    simp only [handleMouseMove, hd]
    norm_num

/-- Witness for C2's amended theorem: the Jan 1/Jan 10/15-day scenario. -/
theorem resize_clamp_amended_witness :
    (DragState.mk DragMode.resizeStart 0 9 0 0).mode = DragMode.resizeStart ∧
    (handleMouseMove ⟨DragMode.resizeStart, 0, 9, 0, 0⟩ 600 40 4).1
      = DragDispatch.barDrag 8 9 :=
  ⟨rfl, (resize_clamp_amended ⟨DragMode.resizeStart, 0, 9, 0, 0⟩ 600 40 4).2.2⟩

/-- C8: in `resize-start`/`resize-end` mode, whatever the pointer delta, the
dispatched pair always satisfies `newStart < newEnd` strictly, given the
session's origin does. -/
theorem resize_dispatch_positive_span (st : DragState) (clientX dayWidth snapDivision : ℚ)
    (hmode : st.mode = DragMode.resizeStart ∨ st.mode = DragMode.resizeEnd)
    (hspan : st.originalStart < st.originalEnd) :
    ∃ ns ne, (handleMouseMove st clientX dayWidth snapDivision).1
        = DragDispatch.barDrag ns ne ∧ ns < ne := by
  rcases hmode with h | h
  · refine ⟨if st.originalStart + snappedDaysDelta clientX st.startX dayWidth snapDivision
          ≥ st.originalEnd then st.originalEnd - 1
        else st.originalStart + snappedDaysDelta clientX st.startX dayWidth snapDivision,
      st.originalEnd, ?_, ?_⟩
    · simp only [handleMouseMove, h]
    · by_cases hc : st.originalStart + snappedDaysDelta clientX st.startX dayWidth snapDivision
          ≥ st.originalEnd
      · rw [if_pos hc]; linarith
      · rw [if_neg hc]; linarith [not_le.mp hc]
  · refine ⟨st.originalStart,
      if st.originalEnd + snappedDaysDelta clientX st.startX dayWidth snapDivision
          ≤ st.originalStart then st.originalStart + 1
        else st.originalEnd + snappedDaysDelta clientX st.startX dayWidth snapDivision,
      ?_, ?_⟩
    · simp only [handleMouseMove, h]
    · by_cases hc : st.originalEnd + snappedDaysDelta clientX st.startX dayWidth snapDivision
          ≤ st.originalStart
      · rw [if_pos hc]; linarith
      · rw [if_neg hc]; linarith [not_le.mp hc]

/-- Witness for C8 at a concrete resize-start session (origin 0 < 9,
pointer delta 340 px). -/
theorem resize_dispatch_positive_span_witness :
    ((DragState.mk DragMode.resizeStart 0 9 0 0).mode = DragMode.resizeStart ∨
      (DragState.mk DragMode.resizeStart 0 9 0 0).mode = DragMode.resizeEnd) ∧
    (DragState.mk DragMode.resizeStart 0 9 0 0).originalStart
      < (DragState.mk DragMode.resizeStart 0 9 0 0).originalEnd ∧
    ∃ ns ne, (handleMouseMove ⟨DragMode.resizeStart, 0, 9, 0, 0⟩ 340 40 4).1
        = DragDispatch.barDrag ns ne ∧ ns < ne :=
  ⟨Or.inl rfl, by norm_num,
   resize_dispatch_positive_span ⟨DragMode.resizeStart, 0, 9, 0, 0⟩ 340 40 4
     (Or.inl rfl) (by norm_num)⟩

/-- C3: during a group-move session a delta is dispatched on a pointer move
iff the snapped day delta differs from `lastAppliedDelta`, the dispatched
value is exactly their difference, and over a whole session starting at
`lastAppliedDelta = 0` the dispatched increments sum to the final absolute
day delta (the snapped delta of the last pointer move). -/
theorem group_move_incremental_telescopes (dayWidth snapDivision : ℚ)
    (st : DragState) (xs : List ℚ)
    (hmode : st.mode = DragMode.groupMove) (hstart : st.lastAppliedDelta = 0)
    (hne : xs ≠ []) :
    (∀ (s : DragState) (x : ℚ), s.mode = DragMode.groupMove →
       handleMouseMove s x dayWidth snapDivision
         = (if snappedDaysDelta x s.startX dayWidth snapDivision = s.lastAppliedDelta
            then (DragDispatch.noDispatch, s)
            else (DragDispatch.groupDrag
                    (snappedDaysDelta x s.startX dayWidth snapDivision - s.lastAppliedDelta),
                  { s with lastAppliedDelta :=
                      snappedDaysDelta x s.startX dayWidth snapDivision }))) ∧
    dispatchedGroupSum (groupMoveRun dayWidth snapDivision st xs).1
      = snappedDaysDelta (xs.getLastD 0) st.startX dayWidth snapDivision := by
  refine ⟨fun s x h => handleMouseMove_groupMove s x dayWidth snapDivision h, ?_⟩
  have h1 := (groupMoveRun_invariants dayWidth snapDivision xs st hmode).2.2
  rw [h1, hstart, groupMoveRun_final dayWidth snapDivision xs st hmode hne, sub_zero]

/-- Witness for C3: a one-move session (pointer delta 40 px at day width 40)
dispatches exactly its final day delta, 1. -/
theorem group_move_incremental_telescopes_witness :
    (DragState.mk DragMode.groupMove 0 9 0 0).mode = DragMode.groupMove ∧
    (DragState.mk DragMode.groupMove 0 9 0 0).lastAppliedDelta = 0 ∧
    ([40] : List ℚ) ≠ [] ∧
    dispatchedGroupSum (groupMoveRun 40 4 (DragState.mk DragMode.groupMove 0 9 0 0) [40]).1
      = 1 := by
  refine ⟨rfl, rfl, by simp, ?_⟩
  have h := (group_move_incremental_telescopes 40 4
    (DragState.mk DragMode.groupMove 0 9 0 0) [40] rfl rfl (by simp)).2
  rw [h]
  norm_num [snappedDaysDelta, jsRound, List.getLastD_cons]



/-- C4: the zoom handler honors a supplied pointer coordinate (offset ratio
`mouseOffsetX / containerWidth`) and falls back to the viewport center (ratio
1/2) only without one — but the gesture detector as wired in the source never
forwards the wheel event's `clientX`/`clientY` to the callback, so a Ctrl+wheel
zoom (here: `deltaY = −100` over a 1000 px viewport with the pointer at
offset 100) actually re-centers on the viewport middle (ratio 1/2), not the
cursor (ratio 1/10), contradicting the detector's own unit test, which asserts
the mouse position is passed through. -/
theorem wheel_zoom_ignores_pointer :
    (zoomGestureWheelCallbackArgs 1 (-100)).newScale = 21/20 ∧
    (zoomGestureWheelCallbackArgs 1 (-100)).mouseX = none ∧
    (wheelZoom 0 0 1000 0 40 1 (-100)).offsetFrac = 1/2 ∧
    (handleZoomChange 0 0 1000 0 40 (21/20) (some 100)).offsetFrac = 1/10 := by
  refine ⟨by norm_num [zoomGestureWheelCallbackArgs],
    by norm_num [zoomGestureWheelCallbackArgs], ?_, ?_⟩
  · norm_num [wheelZoom, zoomGestureWheelCallbackArgs, handleZoomChange]
  · norm_num [handleZoomChange]

/-- C1: whenever the expansion check triggers (scroll within half a viewport of
either edge), the function expands, writes back exactly
`max 0 ((centerDate − newStart − viewportDays/2) × dayWidth)` computed from the
pre-expansion window start, and the date under the viewport center after the
synchronous correction equals the pre-expansion center date exactly. -/
theorem expandIfNeeded_center_preserved (cur : DateRange)
    (scrollLeft containerWidth dayWidth zoomScale : ℚ)
    (hdw : 0 < dayWidth) (hsl : 0 ≤ scrollLeft) (hcw : 0 ≤ containerWidth)
    (htrig : scrollLeft / dayWidth
          < ((viewportDaysOf containerWidth dayWidth : ℤ) : ℚ) * (1/2)
      ∨ scrollLeft / dayWidth
          > (cur.stop - cur.start)
              - ((viewportDaysOf containerWidth dayWidth : ℤ) : ℚ) * (1/2)
              - ((viewportDaysOf containerWidth dayWidth : ℤ) : ℚ)) :
    (expandExtendedDateRangeIfNeeded cur scrollLeft containerWidth dayWidth zoomScale
        true).expanded = true ∧
    (expandExtendedDateRangeIfNeeded cur scrollLeft containerWidth dayWidth zoomScale
        true).scrollLeftSet
      = some (max 0 ((centerDateOf cur.start scrollLeft containerWidth dayWidth
          - (expandExtendedDateRangeIfNeeded cur scrollLeft containerWidth dayWidth zoomScale
              true).range.start
          - ((viewportDaysOf containerWidth dayWidth : ℤ) : ℚ) / 2) * dayWidth)) ∧
    (∀ v, (expandExtendedDateRangeIfNeeded cur scrollLeft containerWidth dayWidth zoomScale
        true).scrollLeftSet = some v →
      0 ≤ v ∧
      centerDateOf (expandExtendedDateRangeIfNeeded cur scrollLeft containerWidth dayWidth
          zoomScale true).range.start v containerWidth dayWidth
        = centerDateOf cur.start scrollLeft containerWidth dayWidth) := by
  have hvd : (0 : ℚ) ≤ ((viewportDaysOf containerWidth dayWidth : ℤ) : ℚ) := by
    have := Int.ceil_nonneg (div_nonneg hcw hdw.le)
    exact_mod_cast this
  have hb : (0 : ℚ) ≤
      ((calculateAdaptiveBuffer ((viewportDaysOf containerWidth dayWidth : ℤ) : ℚ)
          zoomScale : ℤ) : ℚ) := by
    have := calculateAdaptiveBuffer_nonneg
      ((viewportDaysOf containerWidth dayWidth : ℤ) : ℚ) zoomScale hvd
    exact_mod_cast this
  have hsd : (0 : ℚ) ≤ scrollLeft / dayWidth := div_nonneg hsl hdw.le
  simp only [expandExtendedDateRangeIfNeeded, centerDateOf]
  rw [if_pos htrig]
  dsimp only
  simp only [if_true]
  have hX : 0 ≤ cur.start + (scrollLeft / dayWidth
        + ((viewportDaysOf containerWidth dayWidth : ℤ) : ℚ) / 2)
      - (if scrollLeft / dayWidth
            < ((viewportDaysOf containerWidth dayWidth : ℤ) : ℚ) * (1/2)
         then cur.start - ((calculateAdaptiveBuffer
             ((viewportDaysOf containerWidth dayWidth : ℤ) : ℚ) zoomScale : ℤ) : ℚ)
         else cur.start)
      - ((viewportDaysOf containerWidth dayWidth : ℤ) : ℚ) / 2 := by
    split_ifs with hL
    · linarith
    · linarith
  have hX2 : 0 ≤ (cur.start + (scrollLeft / dayWidth
        + ((viewportDaysOf containerWidth dayWidth : ℤ) : ℚ) / 2)
      - (if scrollLeft / dayWidth
            < ((viewportDaysOf containerWidth dayWidth : ℤ) : ℚ) * (1/2)
         then cur.start - ((calculateAdaptiveBuffer
             ((viewportDaysOf containerWidth dayWidth : ℤ) : ℚ) zoomScale : ℤ) : ℚ)
         else cur.start)
      - ((viewportDaysOf containerWidth dayWidth : ℤ) : ℚ) / 2) * dayWidth :=
    mul_nonneg hX hdw.le
  refine ⟨trivial, trivial, ?_⟩
  intro v hv
  rw [Option.some_inj] at hv
  rw [max_eq_right hX2] at hv
  subst hv
  constructor
  · exact hX2
  · rw [mul_div_assoc, div_self hdw.ne', mul_one]
    ring

/-- Witness for C1: a window of 300 days viewed through a 1000 px / 40 px-day
viewport with the scroll at the left edge triggers a left expansion. -/
theorem expandIfNeeded_center_preserved_witness :
    (0 : ℚ) < 40 ∧ (0 : ℚ) ≤ 0 ∧ (0 : ℚ) ≤ 1000 ∧
    ((0 : ℚ) / 40 < ((viewportDaysOf 1000 40 : ℤ) : ℚ) * (1/2)) ∧
    (expandExtendedDateRangeIfNeeded ⟨0, 300⟩ 0 1000 40 6 true).expanded = true := by
  refine ⟨by norm_num, le_refl 0, by norm_num, by norm_num [viewportDaysOf], ?_⟩
  exact (expandIfNeeded_center_preserved ⟨0, 300⟩ 0 1000 40 6 (by norm_num) (le_refl 0)
    (by norm_num) (Or.inl (by norm_num [viewportDaysOf]))).1

/-- C7 (counterexample): starting from the base range day 0 … day 10 at scale
1 (viewport 1000 px, day width 40 px), mount initializes the window to
[−280, 290]; a scroll event at the left edge expands it to [−560, 290]; then
`scrollToDate(−1000)` (target outside the window) re-initializes it back to
[−280, 290] — the new start is strictly greater than the old start, so the
window shrank under an exposed operation. -/
theorem window_shrinks_counterexample :
    (expandExtendedDateRangeIfNeeded (initExtendedDateRange 0 10 1000 40 1)
        0 1000 40 1 true).expanded = true ∧
    (expandExtendedDateRangeIfNeeded (initExtendedDateRange 0 10 1000 40 1)
        0 1000 40 1 true).range.start
      < (scrollToDate
          (expandExtendedDateRangeIfNeeded (initExtendedDateRange 0 10 1000 40 1)
            0 1000 40 1 true).range
          0 10 1000 40 (-1000)).1.start := by
  have hsel : getTickDefinitionForScale 1 = ⟨4/5, 14⟩ := by
    norm_num [getTickDefinitionForScale, TICK_DEFINITIONS, List.find?]
  have h25 : viewportDaysOf 1000 40 = 25 := by norm_num [viewportDaysOf]
  have hbuf : calculateAdaptiveBuffer ((25 : ℤ) : ℚ) 1 = 280 := by
    simp only [calculateAdaptiveBuffer, hsel]
    norm_num
  have hinit : initExtendedDateRange 0 10 1000 40 1 = ⟨-280, 290⟩ := by
    simp only [initExtendedDateRange, h25, hbuf]
    norm_num
  have hexp : (expandExtendedDateRangeIfNeeded (⟨-280, 290⟩ : DateRange)
      0 1000 40 1 true).range = ⟨-560, 290⟩ ∧
      (expandExtendedDateRangeIfNeeded (⟨-280, 290⟩ : DateRange)
      0 1000 40 1 true).expanded = true := by
    simp only [expandExtendedDateRangeIfNeeded, h25, hbuf]
    norm_num
  have hsc : (scrollToDate (⟨-560, 290⟩ : DateRange) 0 10 1000 40 (-1000)).1
      = ⟨-280, 290⟩ := by
    simp only [scrollToDate, getScaleFromDayWidth, BASE_DAY_WIDTH]
    rw [if_pos (by norm_num)]
    rw [show (40 : ℚ) / 40 = 1 by norm_num]
    exact hinit
  rw [hinit]
  rw [hexp.1, hexp.2, hsc]
  norm_num

/-- C7 (amended): the scroll-driven expansion alone never shrinks the window —
its new start is at most the old start and its new end at least the old end —
while re-initialization (at mount, or via `scrollToDate` for a target outside
the window) rebuilds the window from the base range and may shrink it. -/
theorem expand_never_shrinks (cur : DateRange)
    (scrollLeft containerWidth dayWidth zoomScale : ℚ) (hasTimelineElement : Bool)
    (hdw : 0 < dayWidth) (hcw : 0 ≤ containerWidth) :
    (expandExtendedDateRangeIfNeeded cur scrollLeft containerWidth dayWidth zoomScale
        hasTimelineElement).range.start ≤ cur.start ∧
    cur.stop ≤ (expandExtendedDateRangeIfNeeded cur scrollLeft containerWidth dayWidth zoomScale
        hasTimelineElement).range.stop := by
  have hvd : (0 : ℚ) ≤ ((viewportDaysOf containerWidth dayWidth : ℤ) : ℚ) := by
    have := Int.ceil_nonneg (div_nonneg hcw hdw.le)
    exact_mod_cast this
  have hb : (0 : ℚ) ≤
      ((calculateAdaptiveBuffer ((viewportDaysOf containerWidth dayWidth : ℤ) : ℚ)
          zoomScale : ℤ) : ℚ) := by
    have := calculateAdaptiveBuffer_nonneg
      ((viewportDaysOf containerWidth dayWidth : ℤ) : ℚ) zoomScale hvd
    exact_mod_cast this
  simp only [expandExtendedDateRangeIfNeeded]
  split_ifs <;> constructor <;> dsimp only <;> linarith [hb]

/-- Witness for C7's amended theorem at a concrete left-edge expansion. -/
theorem expand_never_shrinks_witness :
    (0 : ℚ) < 40 ∧ (0 : ℚ) ≤ 1000 ∧
    (expandExtendedDateRangeIfNeeded ⟨0, 300⟩ 0 1000 40 6 true).range.start ≤ 0 ∧
    (300 : ℚ) ≤ (expandExtendedDateRangeIfNeeded ⟨0, 300⟩ 0 1000 40 6 true).range.stop := by
  have h := expand_never_shrinks ⟨0, 300⟩ 0 1000 40 6 true (by norm_num) (by norm_num)
  exact ⟨by norm_num, by norm_num, h.1, h.2⟩


end Gantt
